import Mathlib

/- Verification model of keyword_main.py, a keyword suggestion tool.  The program
   fetches a blog page, extracts TF-IDF keywords from its paragraph text, queries
   the Google Custom Search API for related pages, extracts keywords from each
   competitor page, and reports the keywords present in competitors but absent
   from the source blog.

   Modelling conventions: network and parsing effects are passed in as explicit
   outcome values (what requests.get returned or raised, what the HTML parser
   found); Python exceptions that can escape a function are modelled with
   Except; lines printed to stdout are collected in a List String log. -/

/- ===================== Keyword extraction (extract_keywords) ================ -/

/-- Characters kept by the regular expression substitution
    re.sub(non [a-zA-Z space], empty, text): ASCII letters and the space. -/
def keepChar (c : Char) : Bool :=
  (decide ('a' ≤ c) && decide (c ≤ 'z')) || (decide ('A' ≤ c) && decide (c ≤ 'Z')) || (c == ' ')

/-- Python str.lower restricted to the characters that survive keepChar
    (ASCII letters and space): uppercase letters move down by 32 code points,
    everything else is unchanged. -/
def lowerChar (c : Char) : Char :=
  if 'A' ≤ c ∧ c ≤ 'Z' then Char.ofNat (c.toNat + 32) else c

/-- Line text = re.sub(..., text).lower() of extract_keywords: strip every
    character that is not an ASCII letter or space, then lower-case. -/
def preprocess (text : String) : String :=
  String.mk ((text.data.filter keepChar).map lowerChar)

/-- Python str.strip: drop leading and trailing whitespace. -/
def pyStrip (s : String) : String :=
  String.mk (((s.data.dropWhile Char.isWhitespace).reverse.dropWhile Char.isWhitespace).reverse)

/-- Maximal runs of non-space characters of a character list (the accumulator
    holds the current run, reversed). -/
def splitRunsAux : List Char → List Char → List (List Char)
  | acc, [] => if acc.isEmpty then [] else [acc.reverse]
  | acc, c :: cs =>
    if c == ' ' then
      if acc.isEmpty then splitRunsAux [] cs else acc.reverse :: splitRunsAux [] cs
    else
      splitRunsAux (c :: acc) cs

/-- Tokenization used by sklearn CountVectorizer / TfidfVectorizer: the default
    token pattern keeps words of at least two word characters.  On a string made
    of letters and spaces (the output of preprocess) this is exactly the maximal
    letter runs of length at least two. -/
def tokenize (s : String) : List String :=
  ((splitRunsAux [] s.data).filter (fun t => decide (2 ≤ t.length))).map String.mk

/-- The nltk english stopword corpus, the value of stopwords.words with argument
    english, as downloaded by nltk.download at program start (data file
    corpora/stopwords/english of current nltk, 179 entries, in file order).
    Apostrophes in contractions are written with the \x27 escape. -/
def stop_words : List String :=
  ["i", "me", "my", "myself", "we", "our", "ours", "ourselves", "you",
   "you\x27re", "you\x27ve", "you\x27ll", "you\x27d", "your", "yours",
   "yourself", "yourselves", "he", "him", "his", "himself", "she",
   "she\x27s", "her", "hers", "herself", "it", "it\x27s", "its", "itself",
   "they", "them", "their", "theirs", "themselves", "what", "which", "who",
   "whom", "this", "that", "that\x27ll", "these", "those", "am", "is",
   "are", "was", "were", "be", "been", "being", "have", "has", "had",
   "having", "do", "does", "did", "doing", "a", "an", "the", "and", "but",
   "if", "or", "because", "as", "until", "while", "of", "at", "by", "for",
   "with", "about", "against", "between", "into", "through", "during",
   "before", "after", "above", "below", "to", "from", "up", "down", "in",
   "out", "on", "off", "over", "under", "again", "further", "then", "once",
   "here", "there", "when", "where", "why", "how", "all", "any", "both",
   "each", "few", "more", "most", "other", "some", "such", "no", "nor",
   "not", "only", "own", "same", "so", "than", "too", "very", "s", "t",
   "can", "will", "just", "don", "don\x27t", "should", "should\x27ve",
   "now", "d", "ll", "m", "o", "re", "ve", "y", "ain", "aren",
   "aren\x27t", "couldn", "couldn\x27t", "didn", "didn\x27t", "doesn",
   "doesn\x27t", "hadn", "hadn\x27t", "hasn", "hasn\x27t", "haven",
   "haven\x27t", "isn", "isn\x27t", "ma", "mightn", "mightn\x27t",
   "mustn", "mustn\x27t", "needn", "needn\x27t", "shan", "shan\x27t",
   "shouldn", "shouldn\x27t", "wasn", "wasn\x27t", "weren", "weren\x27t",
   "won", "won\x27t", "wouldn", "wouldn\x27t"]

/-- Lexicographic strict comparison of character lists by code point, the
    order in which get_feature_names_out returns the vocabulary. -/
def lexLt : List Char → List Char → Bool
  | [], [] => false
  | [], _ :: _ => true
  | _ :: _, [] => false
  | a :: as, b :: bs => if a < b then true else if b < a then false else lexLt as bs

/-- Two-word phrases of adjacent tokens, joined by one space: the bigrams the
    vectorizer adds for ngram_range (1,2).  sklearn builds them from the token
    list after stop word filtering. -/
def bigrams : List String → List String
  | t1 :: t2 :: rest => (t1 ++ " " ++ t2) :: bigrams (t2 :: rest)
  | _ => []

/-- Model of extract_keywords(text, top_n).  Mirrors the source line by line:
    preprocess the text; return [] if the stripped text is empty; tokenize and
    remove stopwords (TfidfVectorizer with stop_words and ngram_range (1,2));
    if no candidate term remains the vectorizer raises ValueError (empty
    vocabulary), which the source catches and turns into []; otherwise the
    feature names are the alphabetically sorted distinct terms, and terms are
    ranked by descending score with Python sorted (stable, ties keep the
    alphabetical order; insertion sort is likewise stable).  The TF-IDF score
    of a term over this single-document
    fit is its raw count divided by one fixed positive norm, so the descending
    score ranking is the descending count ranking; scores are therefore
    modelled as raw counts.  The source defaults top_n to 20; callers here pass
    it explicitly. -/
def extract_keywords (text : String) (top_n : Nat) : List String :=
  let t := preprocess text
  if pyStrip t = "" then []
  else
    let tokens := (tokenize t).filter (fun w => decide (w ∉ stop_words))
    let ngrams := tokens ++ bigrams tokens
    if ngrams = [] then []
    else
      let feature_names := (ngrams.dedup).insertionSort (fun a b => lexLt b.data a.data = false)
      let keywords := (feature_names.map (fun w => (w, ngrams.count w))).insertionSort
        (fun a b => b.2 ≤ a.2)
      (keywords.take top_n).map Prod.fst

/- ===================== Page fetching (fetch_blog_text, fetch_blog_title) === -/

/-- Outcome of one requests.get call for a page, together with what
    BeautifulSoup would find in the body: netErr is a RequestException raised
    by requests.get itself (connection error, timeout); resp is a received
    response with its HTTP status code, the text contents of its paragraph
    elements, and the text of its title element (none when the page has no
    title element).  response.raise_for_status raises HTTPError exactly for
    status codes 400 to 599. -/
inductive PageResult
  | netErr (msg : String)
  | resp (status : Nat) (paragraphs : List String) (title : Option String)
deriving DecidableEq

/-- Model of fetch_blog_text(url): returns (printed lines, returned string).
    On RequestException (network failure, or HTTPError from raise_for_status on
    a 4xx or 5xx status) the handler prints a diagnostic and returns the empty
    string; otherwise the text contents of all paragraph elements are joined
    with single spaces.  Every raise site is inside the try block and the
    handler cannot raise, so the model is a total function. -/
def fetch_blog_text (url : String) (page : PageResult) : List String × String :=
  let log0 := ["Fetching blog content from: " ++ url]
  match page with
  | .netErr msg => (log0 ++ ["Error fetching " ++ url ++ ": " ++ msg], "")
  | .resp status paragraphs _ =>
    if 400 ≤ status ∧ status < 600 then
      (log0 ++ ["Error fetching " ++ url ++ ": HTTPError " ++ toString status], "")
    else
      (log0, String.intercalate " " paragraphs)

/-- Model of fetch_blog_title(url): the text of the title element if one
    exists, the empty string otherwise; RequestException (network failure or
    4xx/5xx status) is caught, printing a diagnostic and returning the empty
    string. -/
def fetch_blog_title (url : String) (page : PageResult) : List String × String :=
  match page with
  | .netErr msg => (["Error fetching title from " ++ url ++ ": " ++ msg], "")
  | .resp status _ title =>
    if 400 ≤ status ∧ status < 600 then
      (["Error fetching title from " ++ url ++ ": HTTPError " ++ toString status], "")
    else
      ([], title.getD "")

/- ===================== Search provider (get_top_google_results) ============ -/

/-- One item of the items array of a Custom Search API response; the source
    reads its link field. -/
structure SearchItem where
  link : String
deriving DecidableEq

/-- Parsed body of a search response: badJson when response.json() raises
    (requests raises a JSONDecodeError, which is a RequestException and is
    caught by the handler); fields items when the body parses, with items the
    items array when the key is present. -/
inductive SearchBody
  | badJson
  | fields (items : Option (List SearchItem))

/-- Outcome of the requests.get call of get_top_google_results: raised means
    requests.get itself raised a RequestException, so the local variable
    response was never assigned; resp carries the status code, the raw
    response.text, and the parsed body. -/
inductive SearchOutcome
  | raised (msg : String)
  | resp (status : Nat) (text : String) (body : SearchBody)

/-- Model of get_top_google_results(query, num_results): returns (printed
    lines, result).  The result is Except because the function can raise: when
    requests.get itself raised, the except handler prints the first diagnostic
    and then evaluates response.text with the local variable response unbound,
    raising an UnboundLocalError that propagates to the caller.  When a
    response exists, an HTTPError from raise_for_status (status 400 to 599) or
    a JSONDecodeError is caught: the handler prints the exception and
    response.text and returns [].  On a parsed body the links of the items are
    returned in order, or [] with a warning when the items key is absent.
    num_results only shapes the request parameters and the source defaults it
    to 10. -/
def get_top_google_results (query : String) (num_results : Nat) (outcome : SearchOutcome) :
    List String × Except String (List String) :=
  let log0 := ["Searching Google for: " ++ query]
  match outcome with
  | .raised msg =>
    (log0 ++ ["Error during Google API search: " ++ msg],
     .error "UnboundLocalError: local variable response referenced before assignment")
  | .resp status text body =>
    if 400 ≤ status ∧ status < 600 then
      (log0 ++ ["Error during Google API search: HTTPError " ++ toString status,
                "Response text: " ++ text], .ok [])
    else
      match body with
      | .badJson =>
        (log0 ++ ["Error during Google API search: JSONDecodeError",
                  "Response text: " ++ text], .ok [])
      | .fields none => (log0 ++ ["Warning: Google API returned no items."], .ok [])
      | .fields (some items) => (log0, .ok (items.map SearchItem.link))

/- ===================== Suggestion engine (suggest_new_keywords) ============ -/

/-- Model of suggest_new_keywords(existing_keywords, related_blogs_keywords):
    existing_set = set(existing_keywords); all_related accumulates
    set.update over the related lists; the result is all_related minus
    existing_set.  The source returns list(new_keywords), whose order is the
    unspecified iteration order of a Python set, so the model returns the set
    itself. -/
def suggest_new_keywords (existing_keywords : List String)
    (related_blogs_keywords : List (List String)) : Finset String :=
  let existing_set := existing_keywords.toFinset
  let all_related := related_blogs_keywords.foldl (fun acc kw_list => acc ∪ kw_list.toFinset) ∅
  all_related \ existing_set

/- ===================== Orchestrator (main) ================================= -/

/-- External HTTP calls main can perform, in order: a page-text fetch, a title
    fetch, or a search API call. -/
inductive ExtCall
  | fetchText (url : String)
  | fetchTitle (url : String)
  | searchApi (query : String)
deriving DecidableEq

/-- Behaviour of one competitor URL inside the per-competitor loop: page r
    means fetch_blog_text observes outcome r; raises msg means some exception
    escapes while processing that URL (the loop catches every exception). -/
inductive CompStep
  | raises (msg : String)
  | page (r : PageResult)
deriving DecidableEq

/-- Body of the per-competitor loop of main for one URL: returns (printed
    lines, external calls made, optional keyword-list contribution).  A URL
    equal to the source URL is skipped before any fetch; an exception is caught
    and the URL skipped; fetched text whose strip is shorter than 100
    characters is skipped; otherwise extract_keywords of the text (with the
    default top_n of 20) is appended. -/
def processUrl (blog_url : String) (env : String → CompStep) (url : String) :
    List String × List ExtCall × Option (List String) :=
  if url = blog_url then (["Skipping original blog URL: " ++ url], [], none)
  else
    match env url with
    | .raises msg => (["Skipping " ++ url ++ " due to error: " ++ msg], [.fetchText url], none)
    | .page r =>
      let fr := fetch_blog_text url r
      if (pyStrip fr.2).length < 100 then
        (fr.1 ++ ["Skipping " ++ url ++ " due to insufficient content"], [.fetchText url], none)
      else
        (fr.1, [.fetchText url], some (extract_keywords fr.2 20))

/-- The per-competitor loop of main over the search results, accumulating
    printed lines, external calls, and related_keywords_all. -/
def competitorLoop (blog_url : String) (env : String → CompStep) :
    List String → List String × List ExtCall × List (List String)
  | [] => ([], [], [])
  | url :: rest =>
    let step := processUrl blog_url env url
    let tail := competitorLoop blog_url env rest
    (step.1 ++ tail.1, step.2.1 ++ tail.2.1,
     match step.2.2 with
     | some kws => kws :: tail.2.2
     | none => tail.2.2)

/-- Environment of one run of main: the module-level credentials API_KEY and
    SEARCH_ENGINE_ID, the URL typed at the prompt, the outcome of the source
    page fetch, the outcome of the separate title fetch of the same URL, the
    outcome of the search API call, and the behaviour of each competitor
    URL. -/
structure World where
  API_KEY : String
  SEARCH_ENGINE_ID : String
  blog_url : String
  sourcePage : PageResult
  titlePage : PageResult
  search : SearchOutcome
  competitor : String → CompStep

/-- Model of main(), named runMain because Lean reserves the name main:
    returns (printed lines, external calls in order, final outcome).  The final
    outcome is Except because an UnboundLocalError raised inside
    get_top_google_results propagates out of main.  The credential check
    compares the module constants against the two placeholder literals and
    returns before reading input when either matches.  An empty source text
    aborts after the source fetch.  An empty title falls back to a derived
    query string.  The suggestion set print order is unspecified (Python set),
    so the log records a fixed placeholder line for a non-empty set. -/
def runMain (w : World) : List String × List ExtCall × Except String Unit :=
  if w.API_KEY = "PASTE_YOUR_API_KEY_HERE" ∨ w.SEARCH_ENGINE_ID = "PASTE_YOUR_CX_ID_HERE" then
    (["!!! ERROR: Please paste your API_KEY and SEARCH_ENGINE_ID at the top of the script."],
     [], .ok ())
  else
    let fr := fetch_blog_text w.blog_url w.sourcePage
    if fr.2 = "" then
      (fr.1 ++ ["Could not fetch content from the URL. Exiting."],
       [.fetchText w.blog_url], .ok ())
    else
      let existing_keywords := extract_keywords fr.2 20
      let log1 := fr.1 ++ ["--- Existing Keywords in your blog ---", toString existing_keywords]
      let tr := fetch_blog_title w.blog_url w.titlePage
      let blog_topic := if tr.2 = "" then "related topics for " ++ w.blog_url else tr.2
      let log2 := log1 ++ tr.1 ++
        (if tr.2 = "" then ["Could not fetch blog title. Using a fallback query."] else []) ++
        ["--- Detected blog topic/title ---", blog_topic]
      let sr := get_top_google_results blog_topic 10 w.search
      let calls := [ExtCall.fetchText w.blog_url, ExtCall.fetchTitle w.blog_url,
                    ExtCall.searchApi blog_topic]
      match sr.2 with
      | .error e => (log2 ++ sr.1, calls, .error e)
      | .ok related_blog_urls =>
        let log3 := log2 ++ sr.1 ++ ["--- Top related blog URLs from Google ---"] ++
          related_blog_urls ++ ["--- Analyzing competitor blogs... ---"]
        let loop := competitorLoop w.blog_url w.competitor related_blog_urls
        let new_suggestions := suggest_new_keywords existing_keywords loop.2.2
        (log3 ++ loop.1 ++ ["--- Suggested New Keywords for your blog ---"] ++
          (if new_suggestions = ∅ then ["No new keywords found."]
           else ["(suggested keyword set, printed in set order)"]),
         calls ++ loop.2.1, .ok ())

/- ===================== Helper definitions for stated properties ============ -/

/-- Lower-case ASCII letter. -/
def isLowerCh (c : Char) : Prop := 'a' ≤ c ∧ c ≤ 'z'

/-- Well-formed extracted term: non-empty, only lower-case ASCII letters or
    space, at most one space, and the space (if any) is internal. -/
def goodTerm (w : String) : Prop :=
  w.data ≠ [] ∧ (∀ c ∈ w.data, isLowerCh c ∨ c = ' ') ∧ w.data.count ' ' ≤ 1 ∧
    w.data.head? ≠ some ' ' ∧ w.data.getLast? ≠ some ' '

/- ===================== Helper lemmas ======================================= -/

theorem char_le_iff (a b : Char) : a ≤ b ↔ a.toNat ≤ b.toNat := by
  rw [Char.le_def, UInt32.le_def, BitVec.le_def]
  rfl

theorem char_lt_iff (a b : Char) : a < b ↔ a.toNat < b.toNat := by
  rw [Char.lt_def, UInt32.lt_def, BitVec.lt_def]
  rfl

theorem toNat_ofNat_valid (n : Nat) (h : n < 55296) : (Char.ofNat n).toNat = n := by
  simp [Char.ofNat, Nat.isValidChar, h, Char.ofNatAux, Char.toNat, UInt32.toNat,
    BitVec.toNat_ofNatLt]

theorem lowerChar_keep (c : Char) (h : keepChar c = true) :
    isLowerCh (lowerChar c) ∨ lowerChar c = ' ' := by
  have hA : ('A').toNat = 65 := rfl
  have hZ : ('Z').toNat = 90 := rfl
  have ha : ('a').toNat = 97 := rfl
  have hz : ('z').toNat = 122 := rfl
  simp only [keepChar, Bool.or_eq_true, Bool.and_eq_true, decide_eq_true_eq, beq_iff_eq] at h
  rcases h with (⟨h1, h2⟩ | ⟨h1, h2⟩) | h1
  · left
    have hno : ¬ ('A' ≤ c ∧ c ≤ 'Z') := by
      rw [char_le_iff, char_le_iff, hA, hZ]
      rw [char_le_iff, ha] at h1
      omega
    rw [lowerChar, if_neg hno]
    exact ⟨h1, h2⟩
  · left
    have hyes : ('A' ≤ c ∧ c ≤ 'Z') := ⟨h1, h2⟩
    rw [char_le_iff, hA] at h1
    rw [char_le_iff, hZ] at h2
    have hv : c.toNat + 32 < 55296 := by omega
    rw [lowerChar, if_pos hyes]
    constructor <;> rw [char_le_iff] <;> rw [toNat_ofNat_valid _ hv] <;> omega
  · right
    subst h1
    have hno : ¬ ('A' ≤ (' ' : Char) ∧ (' ' : Char) ≤ 'Z') := by decide
    rw [lowerChar, if_neg hno]

theorem preprocess_chars (s : String) (c : Char) (hc : c ∈ (preprocess s).data) :
    isLowerCh c ∨ c = ' ' := by
  have hd : (preprocess s).data = ((s.data.filter keepChar).map lowerChar) := rfl
  rw [hd] at hc
  obtain ⟨c', hc', rfl⟩ := List.mem_map.mp hc
  exact lowerChar_keep c' (List.of_mem_filter hc')

theorem splitRunsAux_mem :
    ∀ (l acc t : List Char), t ∈ splitRunsAux acc l →
    ∀ c ∈ t, c ∈ acc ∨ (c ∈ l ∧ c ≠ ' ') := by
  intro l
  induction l with
  | nil =>
    intro acc t ht c hc
    rw [splitRunsAux] at ht
    split at ht
    · exact absurd ht (List.not_mem_nil t)
    · rw [List.mem_singleton] at ht
      subst ht
      exact Or.inl (List.mem_reverse.mp hc)
  | cons c0 cs ih =>
    intro acc t ht c hc
    rw [splitRunsAux] at ht
    by_cases hsp : (c0 == ' ') = true
    · rw [if_pos hsp] at ht
      split at ht
      · rcases ih [] t ht c hc with h | h
        · exact absurd h (List.not_mem_nil c)
        · exact Or.inr ⟨List.mem_cons_of_mem c0 h.1, h.2⟩
      · rcases List.mem_cons.mp ht with h | h
        · subst h
          exact Or.inl (List.mem_reverse.mp hc)
        · rcases ih [] t h c hc with h2 | h2
          · exact absurd h2 (List.not_mem_nil c)
          · exact Or.inr ⟨List.mem_cons_of_mem c0 h2.1, h2.2⟩
    · rw [if_neg hsp] at ht
      have hc0 : ¬ (c0 = ' ') := by simpa using hsp
      rcases ih (c0 :: acc) t ht c hc with h | h
      · rcases List.mem_cons.mp h with h2 | h2
        · rw [h2]
          exact Or.inr ⟨List.mem_cons_self c0 cs, hc0⟩
        · exact Or.inl h2
      · exact Or.inr ⟨List.mem_cons_of_mem c0 h.1, h.2⟩

theorem tokenize_mem (s : String) (t : String) (ht : t ∈ tokenize s) :
    (∀ c ∈ t.data, c ∈ s.data ∧ c ≠ ' ') ∧ 2 ≤ t.data.length := by
  rw [tokenize] at ht
  obtain ⟨td, htd, rfl⟩ := List.mem_map.mp ht
  have h2 := List.of_mem_filter htd
  have hmem := List.mem_of_mem_filter htd
  rw [decide_eq_true_eq] at h2
  refine ⟨?_, h2⟩
  intro c hc
  rcases splitRunsAux_mem s.data [] td hmem c hc with h | h
  · exact absurd h (List.not_mem_nil c)
  · exact h

theorem token_lower (s : String) (t : String) (ht : t ∈ tokenize (preprocess s)) :
    (∀ c ∈ t.data, isLowerCh c) ∧ 2 ≤ t.data.length := by
  obtain ⟨h1, h2⟩ := tokenize_mem (preprocess s) t ht
  refine ⟨?_, h2⟩
  intro c hc
  obtain ⟨hmem, hne⟩ := h1 c hc
  rcases preprocess_chars s c hmem with h | h
  · exact h
  · exact absurd h hne

theorem bigrams_mem : ∀ (l : List String) (w : String), w ∈ bigrams l →
    ∃ t1 t2, t1 ∈ l ∧ t2 ∈ l ∧ w = t1 ++ " " ++ t2
  | [], w, hw => absurd hw (List.not_mem_nil w)
  | [t], w, hw => absurd hw (List.not_mem_nil w)
  | t1 :: t2 :: rest, w, hw => by
    rcases List.mem_cons.mp hw with h | h
    · exact ⟨t1, t2, List.mem_cons_self t1 _, List.mem_cons_of_mem t1 (List.mem_cons_self t2 _), h⟩
    · obtain ⟨a, b, ha, hb, hab⟩ := bigrams_mem (t2 :: rest) w h
      exact ⟨a, b, List.mem_cons_of_mem t1 ha, List.mem_cons_of_mem t1 hb, hab⟩

theorem space_not_lower : ¬ isLowerCh ' ' := by
  rw [isLowerCh, char_le_iff]
  intro h
  exact absurd h.1 (by decide)

theorem goodTerm_token (t : String) (hlow : ∀ c ∈ t.data, isLowerCh c)
    (hlen : 2 ≤ t.data.length) : goodTerm t := by
  have hsp : ' ' ∉ t.data := fun h => space_not_lower (hlow ' ' h)
  have hne : t.data ≠ [] := by
    intro h
    rw [h] at hlen
    exact absurd hlen (by decide)
  refine ⟨hne, fun c hc => Or.inl (hlow c hc), ?_, ?_, ?_⟩
  · rw [List.count_eq_zero.mpr hsp]
    exact Nat.zero_le 1
  · intro h
    exact hsp (List.mem_of_mem_head? (Option.mem_def.mpr h))
  · intro h
    exact hsp (List.mem_of_mem_getLast? (Option.mem_def.mpr h))

theorem goodTerm_bigram (t1 t2 : String)
    (h1 : ∀ c ∈ t1.data, isLowerCh c) (hl1 : 2 ≤ t1.data.length)
    (h2 : ∀ c ∈ t2.data, isLowerCh c) (hl2 : 2 ≤ t2.data.length) :
    goodTerm (t1 ++ " " ++ t2) := by
  have hsp1 : ' ' ∉ t1.data := fun h => space_not_lower (h1 ' ' h)
  have hsp2 : ' ' ∉ t2.data := fun h => space_not_lower (h2 ' ' h)
  have hne1 : t1.data ≠ [] := by
    intro h; rw [h] at hl1; exact absurd hl1 (by decide)
  have hne2 : t2.data ≠ [] := by
    intro h; rw [h] at hl2; exact absurd hl2 (by decide)
  have hd : (t1 ++ " " ++ t2).data = t1.data ++ ([' '] ++ t2.data) := by
    rw [String.data_append, String.data_append, List.append_assoc]
  constructor
  · rw [hd]
    intro h
    exact hne1 (List.append_eq_nil.mp h).1
  refine ⟨?_, ?_, ?_, ?_⟩
  · intro c hc
    rw [hd] at hc
    rcases List.mem_append.mp hc with h | h
    · exact Or.inl (h1 c h)
    · rcases List.mem_append.mp h with h | h
      · exact Or.inr (List.mem_singleton.mp h)
      · exact Or.inl (h2 c h)
  · rw [hd, List.count_append, List.count_append]
    rw [List.count_eq_zero.mpr hsp1, List.count_eq_zero.mpr hsp2]
    simp
  · rw [hd, List.head?_append_of_ne_nil _ hne1]
    intro h
    exact hsp1 (List.mem_of_mem_head? (Option.mem_def.mpr h))
  · rw [hd, List.getLast?_append_of_ne_nil _ (by simp [hne2] : [' '] ++ t2.data ≠ []),
      List.getLast?_append_of_ne_nil _ hne2]
    intro h
    exact hsp2 (List.mem_of_mem_getLast? (Option.mem_def.mpr h))

theorem take_sort_spec (D : List String) (hD : D.Nodup)
    (cnt : String → Nat) (r1 : String → String → Prop) [DecidableRel r1]
    (r2 : String × Nat → String × Nat → Prop) [DecidableRel r2] (n : Nat) :
    (((((D.insertionSort r1).map (fun w => (w, cnt w))).insertionSort r2).take n).map
      Prod.fst).length ≤ n ∧
    (((((D.insertionSort r1).map (fun w => (w, cnt w))).insertionSort r2).take n).map
      Prod.fst).Nodup ∧
    ∀ w ∈ ((((D.insertionSort r1).map (fun w => (w, cnt w))).insertionSort r2).take n).map
      Prod.fst, w ∈ D := by
  have hF : List.Perm (D.insertionSort r1) D := List.perm_insertionSort r1 D
  have hP : List.Perm (((D.insertionSort r1).map (fun w => (w, cnt w))).insertionSort r2)
      ((D.insertionSort r1).map (fun w => (w, cnt w))) := List.perm_insertionSort r2 _
  have hfst : ((D.insertionSort r1).map (fun w => (w, cnt w))).map Prod.fst
      = D.insertionSort r1 := by
    rw [List.map_map]
    exact List.map_id' (D.insertionSort r1)
  have hPerm : List.Perm ((((D.insertionSort r1).map (fun w => (w, cnt w))).insertionSort
      r2).map Prod.fst) D := by
    have step1 := hP.map Prod.fst
    rw [hfst] at step1
    exact step1.trans hF
  have hTake : ((((D.insertionSort r1).map (fun w => (w, cnt w))).insertionSort r2).take
      n).map Prod.fst = ((((D.insertionSort r1).map (fun w => (w, cnt w))).insertionSort
      r2).map Prod.fst).take n := List.map_take _ _ _
  refine ⟨?_, ?_, ?_⟩
  · rw [hTake, List.length_take]
    exact Nat.min_le_left _ _
  · rw [hTake]
    exact (hPerm.nodup_iff.mpr hD).sublist (List.take_sublist _ _)
  · intro w hw
    rw [hTake] at hw
    exact hPerm.mem_iff.mp (List.mem_of_mem_take hw)

/- ===================== Claim theorems ====================================== -/

/-- C2: for every input text and every top_n, extract_keywords returns at most
    top_n terms, the returned terms are pairwise distinct, and every returned
    term consists only of lower-case ASCII letters, with at most a single
    internal space separating the two words of a bigram. -/
theorem C2_extract_keywords_wellformed (text : String) (top_n : Nat) :
    (extract_keywords text top_n).length ≤ top_n ∧ (extract_keywords text top_n).Nodup ∧
      ∀ w ∈ extract_keywords text top_n, goodTerm w := by
  simp only [extract_keywords]
  by_cases h1 : pyStrip (preprocess text) = ""
  · rw [if_pos h1]
    exact ⟨Nat.zero_le _, List.nodup_nil, fun w hw => absurd hw (List.not_mem_nil w)⟩
  · rw [if_neg h1]
    set tokens := (tokenize (preprocess text)).filter (fun w => decide (w ∉ stop_words))
      with htok
    set ngrams := tokens ++ bigrams tokens with hng
    by_cases h2 : ngrams = []
    · rw [if_pos h2]
      exact ⟨Nat.zero_le _, List.nodup_nil, fun w hw => absurd hw (List.not_mem_nil w)⟩
    · rw [if_neg h2]
      obtain ⟨hlen, hnd, hmem⟩ := take_sort_spec ngrams.dedup (List.nodup_dedup ngrams)
        (fun w => ngrams.count w) (fun a b => lexLt b.data a.data = false)
        (fun a b => b.2 ≤ a.2) top_n
      refine ⟨hlen, hnd, ?_⟩
      intro w hw
      have hwng : w ∈ ngrams := List.mem_dedup.mp (hmem w hw)
      rcases List.mem_append.mp hwng with h | h
      · have ht := List.mem_of_mem_filter h
        obtain ⟨hlow, hl⟩ := token_lower text w ht
        exact goodTerm_token w hlow hl
      · obtain ⟨t1, t2, ht1, ht2, rfl⟩ := bigrams_mem tokens w h
        obtain ⟨hlow1, hl1⟩ := token_lower text t1 (List.mem_of_mem_filter ht1)
        obtain ⟨hlow2, hl2⟩ := token_lower text t2 (List.mem_of_mem_filter ht2)
        exact goodTerm_bigram t1 t2 hlow1 hl1 hlow2 hl2

theorem mem_foldl_union (Bs : List (List String)) (init : Finset String) (x : String) :
    x ∈ Bs.foldl (fun acc l => acc ∪ l.toFinset) init ↔ x ∈ init ∨ ∃ l ∈ Bs, x ∈ l := by
  induction Bs generalizing init with
  | nil => simp
  | cons B rest ih =>
    rw [List.foldl_cons, ih]
    simp only [Finset.mem_union, List.mem_toFinset, List.mem_cons]
    constructor
    · rintro ((h | h) | ⟨l, hl, hx⟩)
      · exact Or.inl h
      · exact Or.inr ⟨B, Or.inl rfl, h⟩
      · exact Or.inr ⟨l, Or.inr hl, hx⟩
    · rintro (h | ⟨l, (rfl | hl), hx⟩)
      · exact Or.inl (Or.inl h)
      · exact Or.inl (Or.inr hx)
      · exact Or.inr ⟨l, hl, hx⟩

theorem mem_suggest (A : List String) (Bs : List (List String)) (x : String) :
    x ∈ suggest_new_keywords A Bs ↔ (∃ B ∈ Bs, x ∈ B) ∧ x ∉ A := by
  simp only [suggest_new_keywords]
  rw [Finset.mem_sdiff, mem_foldl_union]
  simp [List.mem_toFinset]

/-- C1: suggest_new_keywords(A, [B1..Bn]) is, as a set, exactly the union of
    the Bi minus A; on the spec scenario with existing python and testing and
    competitor lists python, mocking and ci, testing the result set is
    mocking, ci. -/
theorem C1_suggest_union_minus :
    (∀ (A : List String) (Bs : List (List String)) (x : String),
      x ∈ suggest_new_keywords A Bs ↔ (∃ B ∈ Bs, x ∈ B) ∧ x ∉ A) ∧
    suggest_new_keywords ["python", "testing"] [["python", "mocking"], ["ci", "testing"]]
      = {"mocking", "ci"} :=
  ⟨mem_suggest, by decide⟩

/-- C5: the suggestion set is invariant under permutation of the related
    lists, and empty when every related list is included in the existing
    keywords. -/
theorem C5_suggest_algebra :
    (∀ (A : List String) (Bs Bs' : List (List String)), List.Perm Bs Bs' →
      suggest_new_keywords A Bs = suggest_new_keywords A Bs') ∧
    (∀ (A : List String) (Bs : List (List String)),
      (∀ B ∈ Bs, ∀ x ∈ B, x ∈ A) → suggest_new_keywords A Bs = ∅) := by
  constructor
  · intro A Bs Bs' hperm
    apply Finset.ext
    intro x
    rw [mem_suggest, mem_suggest]
    constructor
    · rintro ⟨⟨B, hB, hx⟩, hnA⟩
      exact ⟨⟨B, hperm.mem_iff.mp hB, hx⟩, hnA⟩
    · rintro ⟨⟨B, hB, hx⟩, hnA⟩
      exact ⟨⟨B, hperm.mem_iff.mpr hB, hx⟩, hnA⟩
  · intro A Bs hsub
    apply Finset.eq_empty_iff_forall_not_mem.mpr
    intro x hx
    rw [mem_suggest] at hx
    obtain ⟨⟨B, hB, hxB⟩, hnA⟩ := hx
    exact hnA (hsub B hB x hxB)

/-- Witness for C5 at concrete inputs: a transposition of the related lists
    leaves the result unchanged, and related lists included in the existing
    set give the empty result. -/
theorem C5_suggest_algebra_witness :
    suggest_new_keywords ["ab"] [["cd"], ["ef"]] = suggest_new_keywords ["ab"] [["ef"], ["cd"]] ∧
    suggest_new_keywords ["ab", "cd"] [["ab"], ["cd", "ab"]] = ∅ :=
  ⟨C5_suggest_algebra.1 ["ab"] [["cd"], ["ef"]] [["ef"], ["cd"]] (by decide),
   C5_suggest_algebra.2 ["ab", "cd"] [["ab"], ["cd", "ab"]] (by decide)⟩

set_option maxRecDepth 8000 in
/-- C4 counterexample: the contraction stopword written d-o-n-apostrophe-t is
    a text consisting solely of one stopword (and its punctuation), yet
    extract_keywords returns the term dont, not the empty sequence: the
    apostrophe is stripped by the preprocessing and the fused token dont is
    not in the stopword list. -/
theorem C4_counterexample :
    "don\x27t" ∈ stop_words ∧ extract_keywords "don\x27t" 20 = ["dont"] :=
  ⟨by decide, by decide⟩

/-- C4 as amended: extract_keywords returns the empty sequence, with no error
    propagated, for every text whose preprocessed form strips to the empty
    string, and for every text all of whose preprocessed tokens are
    stopwords. -/
theorem C4_extract_keywords_degenerate (text : String) (top_n : Nat)
    (h : pyStrip (preprocess text) = "" ∨ ∀ t ∈ tokenize (preprocess text), t ∈ stop_words) :
    extract_keywords text top_n = [] := by
  simp only [extract_keywords]
  by_cases h1 : pyStrip (preprocess text) = ""
  · rw [if_pos h1]
  · rw [if_neg h1]
    rcases h with h | h
    · exact absurd h h1
    · have htok : (tokenize (preprocess text)).filter (fun w => decide (w ∉ stop_words))
          = [] := by
        rw [List.filter_eq_nil_iff]
        intro a ha
        rw [decide_eq_true_eq]
        exact fun hc => hc (h a ha)
      rw [htok]
      simp [bigrams]

set_option maxRecDepth 8000 in
/-- Witness for the amended C4: a text of stopwords and punctuation whose
    tokens are all stopwords yields the empty sequence. -/
theorem C4_extract_keywords_degenerate_witness :
    extract_keywords "The, and of it!" 20 = [] :=
  C4_extract_keywords_degenerate "The, and of it!" 20 (Or.inr (by decide))

/-- C3: code-bug evidence.  When requests.get itself raises and no response
    was ever bound, the except handler of get_top_google_results evaluates
    response.text on the unbound local and the call raises an
    UnboundLocalError to its caller instead of returning the empty sequence.
    When a response was obtained (here HTTP 500), the handler does print the
    diagnostic with the response text and return the empty sequence. -/
theorem C3_search_failure_behaviour :
    (get_top_google_results "python testing" 10 (SearchOutcome.raised "ConnectionError")).2
      = Except.error "UnboundLocalError: local variable response referenced before assignment" ∧
    (get_top_google_results "python testing" 10 (SearchOutcome.resp 500 "server error body"
      (SearchBody.fields none))).2 = Except.ok [] ∧
    "Response text: server error body" ∈ (get_top_google_results "python testing" 10
      (SearchOutcome.resp 500 "server error body" (SearchBody.fields none))).1 :=
  ⟨rfl, rfl, by decide⟩

/-- C6 counterexample: a fetch that ends in HTTP status 301 — not a 2xx — is
    not raised on by raise_for_status, so fetch_blog_text returns the page's
    paragraph text instead of the empty string. -/
theorem C6_counterexample :
    (fetch_blog_text "http://blog.example"
      (PageResult.resp 301 ["some paragraph content"] none)).2 = "some paragraph content" ∧
    (fetch_blog_text "http://blog.example"
      (PageResult.resp 301 ["some paragraph content"] none)).2 ≠ "" :=
  ⟨by decide, by decide⟩

/-- C6 as amended: for every URL, when the page fetch ends in a network
    failure, or in a 4xx or 5xx HTTP status (exactly the statuses the client's
    raise_for_status raises on), fetch_blog_text returns the empty string,
    emits a diagnostic, and never raises. -/
theorem C6_fetch_error_empty (url msg : String) (status : Nat) (ps : List String)
    (title : Option String) :
    ((fetch_blog_text url (PageResult.netErr msg)).2 = "" ∧
     ("Error fetching " ++ url ++ ": " ++ msg) ∈ (fetch_blog_text url (PageResult.netErr msg)).1) ∧
    (400 ≤ status → status < 600 →
      (fetch_blog_text url (PageResult.resp status ps title)).2 = "" ∧
      ("Error fetching " ++ url ++ ": HTTPError " ++ toString status)
        ∈ (fetch_blog_text url (PageResult.resp status ps title)).1) := by
  refine ⟨⟨rfl, by simp [fetch_blog_text]⟩, ?_⟩
  intro h1 h2
  simp only [fetch_blog_text]
  rw [if_pos ⟨h1, h2⟩]
  exact ⟨rfl, by simp⟩

/-- Witness for the amended C6 at a 404 status and at a network error. -/
theorem C6_fetch_error_empty_witness :
    (fetch_blog_text "http://x" (PageResult.resp 404 ["body"] none)).2 = "" ∧
    (fetch_blog_text "http://x" (PageResult.netErr "timeout")).2 = "" :=
  ⟨((C6_fetch_error_empty "http://x" "timeout" 404 ["body"] none).2 (by decide) (by decide)).1,
   (C6_fetch_error_empty "http://x" "timeout" 404 ["body"] none).1.1⟩

/-- C7: for every successful 2xx search response, a parsed body lacking the
    items field yields a warning diagnostic and the empty sequence, and a body
    with items yields exactly the link field of each item, in provider
    order. -/
theorem C7_search_success (query : String) (n status : Nat) (text : String)
    (items : List SearchItem) (h2a : 200 ≤ status) (h2b : status < 300) :
    ((get_top_google_results query n (SearchOutcome.resp status text
        (SearchBody.fields none))).2 = Except.ok [] ∧
      "Warning: Google API returned no items." ∈ (get_top_google_results query n
        (SearchOutcome.resp status text (SearchBody.fields none))).1) ∧
    (get_top_google_results query n (SearchOutcome.resp status text
      (SearchBody.fields (some items)))).2 = Except.ok (items.map SearchItem.link) := by
  have hno : ¬ (400 ≤ status ∧ status < 600) := by omega
  refine ⟨⟨?_, ?_⟩, ?_⟩ <;> simp only [get_top_google_results] <;> rw [if_neg hno] <;> simp

/-- Witness for C7 at HTTP 200, with and without the items field. -/
theorem C7_search_success_witness :
    (get_top_google_results "q" 10 (SearchOutcome.resp 200 "body"
      (SearchBody.fields (some [⟨"http://a"⟩, ⟨"http://b"⟩])))).2
        = Except.ok ["http://a", "http://b"] ∧
    (get_top_google_results "q" 10 (SearchOutcome.resp 200 "body"
      (SearchBody.fields none))).2 = Except.ok [] :=
  ⟨(C7_search_success "q" 10 200 "body" [⟨"http://a"⟩, ⟨"http://b"⟩]
      (by decide) (by decide)).2,
   (C7_search_success "q" 10 200 "body" [] (by decide) (by decide)).1.1⟩

theorem competitorLoop_contributions (b : String) (env : String → CompStep) :
    ∀ urls : List String, (competitorLoop b env urls).2.2
      = urls.filterMap (fun u => (processUrl b env u).2.2)
  | [] => rfl
  | url :: rest => by
    rw [competitorLoop, List.filterMap_cons]
    cases hres : (processUrl b env url).2.2 with
    | none => simp only [hres, competitorLoop_contributions b env rest]
    | some k => simp only [hres, competitorLoop_contributions b env rest]

/-- C8: in the competitor loop, the aggregated keyword lists are exactly the
    per-URL contributions in order (so one URL only ever affects its own
    contribution and a failing URL never aborts the loop), and a URL equal to
    the source URL, a URL whose processing raises, and a URL whose fetched
    text strips to fewer than 100 characters each contribute nothing. -/
theorem C8_competitor_loop (b : String) (env : String → CompStep) (urls : List String) :
    (competitorLoop b env urls).2.2 = urls.filterMap (fun u => (processUrl b env u).2.2) ∧
    (∀ u, u = b → (processUrl b env u).2.2 = none) ∧
    (∀ u m, env u = CompStep.raises m → (processUrl b env u).2.2 = none) ∧
    (∀ u r, env u = CompStep.page r → (pyStrip (fetch_blog_text u r).2).length < 100 →
      (processUrl b env u).2.2 = none) := by
  refine ⟨competitorLoop_contributions b env urls, ?_, ?_, ?_⟩
  · intro u hu
    rw [processUrl, if_pos hu]
  · intro u m henv
    by_cases hu : u = b
    · rw [processUrl, if_pos hu]
    · rw [processUrl, if_neg hu, henv]
  · intro u r henv hshort
    by_cases hu : u = b
    · rw [processUrl, if_pos hu]
    · rw [processUrl, if_neg hu, henv]
      simp only [if_pos hshort]

/-- Witness for C8 at a concrete environment: the source URL itself, a URL
    whose processing raises, and a URL with fewer than 100 stripped characters
    each contribute nothing. -/
theorem C8_competitor_loop_witness :
    (processUrl "http://me" (fun u => if u = "http://err" then CompStep.raises "boom"
      else CompStep.page (PageResult.resp 200 ["tiny"] none)) "http://me").2.2 = none ∧
    (processUrl "http://me" (fun u => if u = "http://err" then CompStep.raises "boom"
      else CompStep.page (PageResult.resp 200 ["tiny"] none)) "http://err").2.2 = none ∧
    (processUrl "http://me" (fun u => if u = "http://err" then CompStep.raises "boom"
      else CompStep.page (PageResult.resp 200 ["tiny"] none)) "http://short").2.2 = none :=
  ⟨(C8_competitor_loop "http://me" _ []).2.1 "http://me" rfl,
   (C8_competitor_loop "http://me" _ []).2.2.1 "http://err" "boom" (by decide),
   (C8_competitor_loop "http://me" _ []).2.2.2 "http://short"
     (PageResult.resp 200 ["tiny"] none) (by decide) (by decide)⟩

/-- C9: when the credentials pass the startup check and the source fetch
    yields empty text, main reports the failure as its last printed line and
    stops: the only external call of the whole run is the one source page
    fetch — no title fetch, no search call, no competitor fetch. -/
theorem C9_abort_on_empty_source (w : World)
    (hcred : ¬ (w.API_KEY = "PASTE_YOUR_API_KEY_HERE"
      ∨ w.SEARCH_ENGINE_ID = "PASTE_YOUR_CX_ID_HERE"))
    (hempty : (fetch_blog_text w.blog_url w.sourcePage).2 = "") :
    (runMain w).2.1 = [ExtCall.fetchText w.blog_url] ∧
    (runMain w).2.2 = Except.ok () ∧
    (runMain w).1.getLast? = some "Could not fetch content from the URL. Exiting." := by
  simp only [runMain]
  rw [if_neg hcred, if_pos hempty]
  refine ⟨rfl, rfl, ?_⟩
  simp

/-- Witness for C9: a run with non-placeholder credentials whose source fetch
    raises a network error performs exactly the one source fetch call. -/
theorem C9_abort_on_empty_source_witness :
    (runMain (⟨"k", "c", "http://src", PageResult.netErr "timeout", PageResult.netErr "x",
      SearchOutcome.raised "x", fun _ => CompStep.raises "x"⟩ : World)).2.1
      = [ExtCall.fetchText "http://src"] :=
  (C9_abort_on_empty_source ⟨"k", "c", "http://src", PageResult.netErr "timeout",
    PageResult.netErr "x", SearchOutcome.raised "x", fun _ => CompStep.raises "x"⟩
    (by decide) rfl).1

/-- C10: the startup credential check aborts the run (printing only the error
    line, performing no external call) exactly when API_KEY is the placeholder
    string PASTE_YOUR_API_KEY_HERE or SEARCH_ENGINE_ID is the placeholder
    string PASTE_YOUR_CX_ID_HERE; with any other credentials — the empty
    string included — the run proceeds and its first external call is the
    source page fetch. -/
theorem C10_credential_check (w : World) :
    ((runMain w) = (["!!! ERROR: Please paste your API_KEY and SEARCH_ENGINE_ID at the top of the script."],
        [], Except.ok ())
      ↔ (w.API_KEY = "PASTE_YOUR_API_KEY_HERE" ∨ w.SEARCH_ENGINE_ID = "PASTE_YOUR_CX_ID_HERE")) ∧
    (¬ (w.API_KEY = "PASTE_YOUR_API_KEY_HERE" ∨ w.SEARCH_ENGINE_ID = "PASTE_YOUR_CX_ID_HERE") →
      (runMain w).2.1.head? = some (ExtCall.fetchText w.blog_url)) := by
  have key : ¬ (w.API_KEY = "PASTE_YOUR_API_KEY_HERE"
      ∨ w.SEARCH_ENGINE_ID = "PASTE_YOUR_CX_ID_HERE") →
      (runMain w).2.1.head? = some (ExtCall.fetchText w.blog_url) := by
    intro hcond
    simp only [runMain]
    rw [if_neg hcond]
    by_cases hfr : (fetch_blog_text w.blog_url w.sourcePage).2 = ""
    · rw [if_pos hfr]
      rfl
    · rw [if_neg hfr]
      split
      · rfl
      · rfl
  refine ⟨⟨?_, ?_⟩, key⟩
  · intro heq
    by_contra hcond
    have h2 := key hcond
    rw [heq] at h2
    simp at h2
  · intro hcond
    simp only [runMain]
    rw [if_pos hcond]

/-- Witness for C10: with both credentials set to the empty string (not the
    placeholders) the run is not aborted at startup and proceeds to the source
    page fetch. -/
theorem C10_credential_check_witness :
    (runMain (⟨"", "", "http://src", PageResult.netErr "x", PageResult.netErr "x",
      SearchOutcome.raised "x", fun _ => CompStep.raises "x"⟩ : World)).2.1.head?
      = some (ExtCall.fetchText "http://src") :=
  (C10_credential_check ⟨"", "", "http://src", PageResult.netErr "x", PageResult.netErr "x",
    SearchOutcome.raised "x", fun _ => CompStep.raises "x"⟩).2 (by decide)
